import Mathlib

/-!
Shallow embedding of `src/geminiService.ts`, a Gemini API service module
for a Taiwan-Vietnam marriage-interview tool.

The module consists of a retrying call executor (`callGeminiWithRetry`)
and four prompt operations (`getAiFeedback`, `translateText`,
`getAiSummary`, `checkAnswerConsistency`).

Modelling conventions:
- The external service is modelled by a sequence `outcomes : Nat → Outcome String`,
  giving for each attempt index the outcome the wrapped `apiCall` would
  produce on that attempt (success with the response text, or a thrown error).
- A JavaScript error value is modelled by `JsError`: its (possibly absent)
  numeric `status` and `code` fields, its (possibly absent) `message` string,
  and the string `JSON.stringify` produces for it (`serialized`).
- `await sleep(delay)` is modelled by recording `delay` in a list of delays;
  the executor's result carries the number of call attempts made and the
  list of delays slept, in order.
- JavaScript falsiness of the `apiKey` string (`undefined` or `""`) is
  modelled by `hasKey : Option String → Bool`.
- `JSON.parse` is modelled by `jsonParse`, an executable JSON parser over
  a `Json` value type (numbers restricted to integer numerals, which covers
  every value the declared boolean/string response schema can produce).
-/

/-- Model of a JavaScript error value as inspected by `callGeminiWithRetry`:
`error?.status`, `error?.code`, `error?.message`, and `JSON.stringify(error)`. -/
structure JsError where
  status : Option Int
  code : Option Int
  message : Option String
  serialized : String
  deriving Repr, DecidableEq

/-- Outcome of one attempt of the wrapped `apiCall`: either it resolves with
a response (modelled by its `.text` string), or it rejects with an error. -/
inductive Outcome (α : Type) where
  | ok (v : α)
  | err (e : JsError)
  deriving Repr

/-- JavaScript `String.prototype.includes`: substring containment. -/
def strIncludes (s pat : String) : Bool :=
  decide (pat.data <:+: s.data)

/-- The `isRateLimit` classification inside `callGeminiWithRetry`
(src/geminiService.ts lines 27-35):
`error?.status === 429 || error?.code === 429 ||
 error?.message?.includes("429") || error?.message?.includes("RESOURCE_EXHAUSTED") ||
 error?.message?.includes("quota") || JSON.stringify(error).includes("429") ||
 JSON.stringify(error).includes("RESOURCE_EXHAUSTED") || JSON.stringify(error).includes("quota")`. -/
def isRateLimit (e : JsError) : Bool :=
  (e.status == some 429) ||
  (e.code == some 429) ||
  (match e.message with
   | some m => strIncludes m "429" || strIncludes m "RESOURCE_EXHAUSTED" || strIncludes m "quota"
   | none => false) ||
  strIncludes e.serialized "429" ||
  strIncludes e.serialized "RESOURCE_EXHAUSTED" ||
  strIncludes e.serialized "quota"

/-- How an execution of `callGeminiWithRetry` ends, together with the
number of call attempts made and the list of backoff delays slept (in order):
- `success v`: some attempt resolved and its value was returned;
- `thrown e`: a `throw error` from inside the catch block of some attempt;
- `afterLoop lastError`: the trailing `throw lastError` after the loop
  (with `none` standing for an undefined `lastError`). -/
inductive ExecResult (α : Type) where
  | success (v : α) (attempts : Nat) (delays : List Nat)
  | thrown (e : JsError) (attempts : Nat) (delays : List Nat)
  | afterLoop (lastError : Option JsError) (attempts : Nat) (delays : List Nat)
  deriving Repr

/-- Prepend a slept delay to the delay trace of a result. -/
def ExecResult.consDelay (d : Nat) : ExecResult α → ExecResult α
  | .success v a ds => .success v a (d :: ds)
  | .thrown e a ds => .thrown e a (d :: ds)
  | .afterLoop le a ds => .afterLoop le a (d :: ds)

/-- The retry loop of `callGeminiWithRetry`: `i` is the current value of the
loop counter, `remaining` the number of loop iterations still permitted
(`maxRetries - i`), `lastError` the current value of the `lastError` variable.
Each iteration tries `outcomes i`; on a retryable error with `i < maxRetries - 1`
it sleeps `initialDelay * 2 ^ i` and continues, otherwise it rethrows.
If the iteration budget is exhausted the trailing `throw lastError` fires. -/
def retryGo (outcomes : Nat → Outcome α) (maxRetries initialDelay : Nat) :
    Nat → Nat → Option JsError → ExecResult α
  | i, 0, lastError => .afterLoop lastError i []
  | i, remaining + 1, _ =>
    match outcomes i with
    | .ok v => .success v (i + 1) []
    | .err e =>
      if isRateLimit e = true ∧ i < maxRetries - 1 then
        (retryGo outcomes maxRetries initialDelay (i + 1) remaining (some e)).consDelay
          (initialDelay * 2 ^ i)
      else
        .thrown e (i + 1) []

/-- `callGeminiWithRetry(apiCall, maxRetries = 5, initialDelay = 5000)`
(src/geminiService.ts lines 14-49), with the wrapped call modelled by
the per-attempt outcome sequence `outcomes`. -/
def callGeminiWithRetry (outcomes : Nat → Outcome α) (maxRetries initialDelay : Nat) :
    ExecResult α :=
  retryGo outcomes maxRetries initialDelay 0 maxRetries none

/-- Default value of the `maxRetries` parameter. -/
def defaultMaxRetries : Nat := 5

/-- Default value of the `initialDelay` parameter (milliseconds). -/
def defaultInitialDelay : Nat := 5000

/-- JSON value, the result type of `JSON.parse`. Numbers are modelled as
integer numerals; the declared consistency response schema only involves
boolean and string fields. -/
inductive Json where
  | null
  | bool (b : Bool)
  | num (n : Int)
  | str (s : String)
  | arr (elems : List Json)
  | obj (fields : List (String × Json))

/-- The opening brace character. -/
def lbraceChar : Char := Char.ofNat 123

/-- The closing brace character. -/
def rbraceChar : Char := Char.ofNat 125

/-- JSON whitespace characters. -/
def isJsonWs (c : Char) : Bool :=
  c = ' ' || c = '\t' || c = '\n' || c = '\r'

/-- Drop leading JSON whitespace. -/
def skipWs : List Char → List Char
  | [] => []
  | c :: rest => if isJsonWs c then skipWs rest else c :: rest

/-- Value of a hexadecimal digit. -/
def hexVal (c : Char) : Option Nat :=
  if '0' ≤ c ∧ c ≤ '9' then some (c.toNat - '0'.toNat)
  else if 'a' ≤ c ∧ c ≤ 'f' then some (c.toNat - 'a'.toNat + 10)
  else if 'A' ≤ c ∧ c ≤ 'F' then some (c.toNat - 'A'.toNat + 10)
  else none

/-- Parse the remainder of a JSON string literal, after the opening quote:
returns the decoded characters and the input remaining after the closing
quote. -/
def parseStringRest : List Char → Option (List Char × List Char)
  | [] => none
  | c :: rest =>
    if c = '"' then some ([], rest)
    else if c = '\\' then
      match rest with
      | [] => none
      | e :: rest2 =>
        if e = '"' then
          match parseStringRest rest2 with
          | some (cs, r) => some ('"' :: cs, r)
          | none => none
        else if e = '\\' then
          match parseStringRest rest2 with
          | some (cs, r) => some ('\\' :: cs, r)
          | none => none
        else if e = '/' then
          match parseStringRest rest2 with
          | some (cs, r) => some ('/' :: cs, r)
          | none => none
        else if e = 'b' then
          match parseStringRest rest2 with
          | some (cs, r) => some (Char.ofNat 8 :: cs, r)
          | none => none
        else if e = 'f' then
          match parseStringRest rest2 with
          | some (cs, r) => some (Char.ofNat 12 :: cs, r)
          | none => none
        else if e = 'n' then
          match parseStringRest rest2 with
          | some (cs, r) => some ('\n' :: cs, r)
          | none => none
        else if e = 'r' then
          match parseStringRest rest2 with
          | some (cs, r) => some ('\r' :: cs, r)
          | none => none
        else if e = 't' then
          match parseStringRest rest2 with
          | some (cs, r) => some ('\t' :: cs, r)
          | none => none
        else if e = 'u' then
          match rest2 with
          | a :: b :: c2 :: d :: rest3 =>
            match hexVal a, hexVal b, hexVal c2, hexVal d with
            | some ha, some hb, some hc, some hd =>
              match parseStringRest rest3 with
              | some (cs, r) =>
                some (Char.ofNat (((ha * 16 + hb) * 16 + hc) * 16 + hd) :: cs, r)
              | none => none
            | _, _, _, _ => none
          | _ => none
        else none
    else
      match parseStringRest rest with
      | some (cs, r) => some (c :: cs, r)
      | none => none

/-- Accumulate leading decimal digits. -/
def parseDigitsGo (acc : Nat) : List Char → Nat × List Char
  | [] => (acc, [])
  | c :: rest =>
    if c.isDigit then parseDigitsGo (acc * 10 + (c.toNat - '0'.toNat)) rest
    else (acc, c :: rest)

/-- Parse a JSON integer numeral: an optional minus sign followed by at
least one digit. -/
def parseNumber : List Char → Option (Json × List Char)
  | [] => none
  | c :: rest =>
    if c = '-' then
      match rest with
      | d :: _ =>
        if d.isDigit then
          let (n, r) := parseDigitsGo 0 rest
          some (Json.num (-(n : Int)), r)
        else none
      | [] => none
    else if c.isDigit then
      let (n, r) := parseDigitsGo 0 (c :: rest)
      some (Json.num (n : Int), r)
    else none

mutual

/-- Parse one JSON value (fuel-indexed recursion). -/
def parseValue : Nat → List Char → Option (Json × List Char)
  | 0, _ => none
  | fuel + 1, cs =>
    match skipWs cs with
    | [] => none
    | c :: rest =>
      if c = 'n' then
        match rest with
        | 'u' :: 'l' :: 'l' :: r => some (Json.null, r)
        | _ => none
      else if c = 't' then
        match rest with
        | 'r' :: 'u' :: 'e' :: r => some (Json.bool true, r)
        | _ => none
      else if c = 'f' then
        match rest with
        | 'a' :: 'l' :: 's' :: 'e' :: r => some (Json.bool false, r)
        | _ => none
      else if c = '"' then
        match parseStringRest rest with
        | some (cs2, r) => some (Json.str (String.mk cs2), r)
        | none => none
      else if c = '[' then
        match skipWs rest with
        | c2 :: r =>
          if c2 = ']' then some (Json.arr [], r)
          else
            match parseElems fuel (c2 :: r) with
            | some (js, r2) => some (Json.arr js, r2)
            | none => none
        | [] => none
      else if c = lbraceChar then
        match skipWs rest with
        | c2 :: r =>
          if c2 = rbraceChar then some (Json.obj [], r)
          else
            match parseFields fuel (c2 :: r) with
            | some (fs, r2) => some (Json.obj fs, r2)
            | none => none
        | [] => none
      else if c = '-' ∨ c.isDigit then parseNumber (c :: rest)
      else none

/-- Parse a non-empty comma-separated list of array elements and the
closing bracket. -/
def parseElems : Nat → List Char → Option (List Json × List Char)
  | 0, _ => none
  | fuel + 1, cs =>
    match parseValue fuel cs with
    | none => none
    | some (j, rest) =>
      match skipWs rest with
      | c :: r =>
        if c = ',' then
          match parseElems fuel r with
          | some (js, r2) => some (j :: js, r2)
          | none => none
        else if c = ']' then some ([j], r)
        else none
      | [] => none

/-- Parse a non-empty comma-separated list of object members and the
closing brace. -/
def parseFields : Nat → List Char → Option (List (String × Json) × List Char)
  | 0, _ => none
  | fuel + 1, cs =>
    match skipWs cs with
    | c :: rest =>
      if c = '"' then
        match parseStringRest rest with
        | some (keyChars, r1) =>
          match skipWs r1 with
          | c2 :: r2 =>
            if c2 = ':' then
              match parseValue fuel r2 with
              | some (j, r3) =>
                match skipWs r3 with
                | c3 :: r4 =>
                  if c3 = ',' then
                    match parseFields fuel r4 with
                    | some (fs, r5) => some ((String.mk keyChars, j) :: fs, r5)
                    | none => none
                  else if c3 = rbraceChar then
                    some ([(String.mk keyChars, j)], r4)
                  else none
                | [] => none
              | none => none
            else none
          | [] => none
        | none => none
      else none
    | [] => none

end

/-- `JSON.parse`: parse the whole string as a single JSON value; `none`
models a thrown `SyntaxError`. -/
def jsonParse (s : String) : Option Json :=
  match parseValue (2 * s.length + 2) s.data with
  | some (j, rest) => if skipWs rest = [] then some j else none
  | none => none

/-- JavaScript truthiness of `import.meta.env.VITE_GEMINI_API_KEY`
(a string or `undefined`): `!apiKey` is true for `undefined` and `""`. -/
def hasKey : Option String → Bool
  | none => false
  | some s => !s.isEmpty

/-- The model identifier used by every operation. -/
def geminiModel : String := "gemini-2.0-flash"

/-- The request each operation passes to `ai.models.generateContent`:
model identifier, contents, system instruction, and whether the structured
JSON output (`responseMimeType`/`responseSchema`) is requested. The
floating-point `temperature` option has no observable effect in this model
and is omitted. -/
structure GenRequest where
  model : String
  contents : String
  systemInstruction : String
  structuredOutput : Bool
  deriving Repr, DecidableEq

/-- Result of running one prompt operation: the returned value, the request
sent (`none` when the credential check short-circuits before any call), the
number of call attempts the executor made, and the backoff delays slept. -/
structure OpRun (ρ : Type) where
  result : ρ
  request : Option GenRequest
  attempts : Nat
  delays : List Nat

/-- The "API Key not configured" message returned by `getAiFeedback` when
the credential is missing. -/
def feedbackKeyMissingMsg : String :=
  "API Key 未設置。請在 .env.local 中設置 VITE_GEMINI_API_KEY / API Key chưa được cấu hình. Vui lòng đặt VITE_GEMINI_API_KEY trong .env.local"

/-- The system instruction built by `getAiFeedback`. -/
def feedbackSystemInstruction (targetLangName : String) : String :=
  "You are an expert consultant for Taiwan-Vietnam marriage interviews. \n  Your goal is to analyze the answers from both the groom and the bride, point out any inconsistencies, and provide professional advice to make their answers more persuasive, consistent, and authentic. \n  IMPORTANT: You must provide your response entirely in " ++ targetLangName ++ "."

/-- The prompt built by `getAiFeedback`. -/
def feedbackPrompt (question maleAnswer femaleAnswer targetLangName : String) : String :=
  "\n    Question: " ++ question ++ "\n    Groom\x27s Answer: " ++ maleAnswer ++ "\n    Bride\x27s Answer: " ++ femaleAnswer ++ "\n    \n    Please provide feedback and suggestions in " ++ targetLangName ++ ".\n  "

/-- The bilingual fallback message returned by `getAiFeedback` when the
call path fails. -/
def feedbackFallbackMsg : String :=
  "AI 暫時無法回應 (已達流量限制或出現錯誤)。請稍候 1 分鐘後再試。/ AI tạm thời không phản hồi (đã đạt giới hạn lưu lượng hoặc gặp lỗi). Vui lòng thử lại sau 1 phút."

/-- `getAiFeedback(question, maleAnswer, femaleAnswer, targetLangName)`
(src/geminiService.ts lines 51-92). -/
def getAiFeedback (apiKey : Option String)
    (question maleAnswer femaleAnswer targetLangName : String)
    (outcomes : Nat → Outcome String) : OpRun String :=
  if hasKey apiKey = false then
    ⟨feedbackKeyMissingMsg, none, 0, []⟩
  else
    let req : GenRequest :=
      ⟨geminiModel, feedbackPrompt question maleAnswer femaleAnswer targetLangName,
        feedbackSystemInstruction targetLangName, false⟩
    match callGeminiWithRetry outcomes defaultMaxRetries defaultInitialDelay with
    | .success t a ds => ⟨t, some req, a, ds⟩
    | .thrown _ a ds => ⟨feedbackFallbackMsg, some req, a, ds⟩
    | .afterLoop _ a ds => ⟨feedbackFallbackMsg, some req, a, ds⟩

/-- The `targetLang : 'zh' | 'vi'` parameter of `translateText`. -/
inductive TargetLang where
  | zh
  | vi
  deriving Repr, DecidableEq

/-- `targetLang === 'zh' ? 'Traditional Chinese' : 'Vietnamese'`. -/
def translateTargetLabel : TargetLang → String
  | .zh => "Traditional Chinese"
  | .vi => "Vietnamese"

/-- The system instruction built by `translateText`. -/
def translateSystemInstruction (targetLang : TargetLang) : String :=
  "You are a professional translator specializing in Taiwan and Vietnam cultural context. \n  Translate the given text into " ++ translateTargetLabel targetLang ++ ". \n  Maintain the original meaning and emotional tone. \n  Only return the translated text. Do not add any explanation or markers."

/-- `translateText(text, targetLang)` (src/geminiService.ts lines 94-127);
`none` models the `null` return. -/
def translateText (apiKey : Option String) (text : String) (targetLang : TargetLang)
    (outcomes : Nat → Outcome String) : OpRun (Option String) :=
  if hasKey apiKey = false then
    ⟨none, none, 0, []⟩
  else
    let req : GenRequest :=
      ⟨geminiModel, text, translateSystemInstruction targetLang, false⟩
    match callGeminiWithRetry outcomes defaultMaxRetries defaultInitialDelay with
    | .success t a ds => ⟨some t, some req, a, ds⟩
    | .thrown _ a ds => ⟨none, some req, a, ds⟩
    | .afterLoop _ a ds => ⟨none, some req, a, ds⟩

/-- `SummaryType = 'concise' | 'detailed' | 'keypoints'`. -/
inductive SummaryType where
  | concise
  | detailed
  | keypoints
  deriving Repr, DecidableEq

/-- The declared default of the `type` parameter of `getAiSummary`
(`type: SummaryType = 'concise'`): a call that omits the argument passes
this value. -/
def summaryTypeDefault : SummaryType := SummaryType.concise

/-- The "API Key not configured" message returned by `getAiSummary` when
the credential is missing. -/
def summaryKeyMissingMsg : String := "API Key 未設置。/ API Key chưa được cấu hình."

/-- The fixed part of the instruction selected by `getAiSummary` for each
summary type, up to the interpolated target language name. -/
def summaryInstructionHead (type : SummaryType) : String :=
  match type with
  | .concise =>
    "You are a concise summarization tool. Summarize the following content in under 30 words. You MUST respond entirely in "
  | .detailed =>
    "You are a detailed summarization tool. Summarize the following content in about 100 words with details. You MUST respond entirely in "
  | .keypoints =>
    "You are a key points extraction tool. List the most important 3 to 5 key points. You MUST respond entirely in "

/-- The instruction selected by `getAiSummary` for each summary type. -/
def summaryInstruction (type : SummaryType) (targetLangName : String) : String :=
  summaryInstructionHead type ++ targetLangName ++ "."

/-- The prompt built by `getAiSummary`. -/
def summaryPrompt (answer : String) : String :=
  "Content to summarize: " ++ answer

/-- `getAiSummary(answer, targetLangName, type = 'concise')`
(src/geminiService.ts lines 129-177); the string-or-null return is
modelled by `Option String`, with the key-missing message a `some`. -/
def getAiSummary (apiKey : Option String) (answer targetLangName : String)
    (type : SummaryType) (outcomes : Nat → Outcome String) : OpRun (Option String) :=
  if hasKey apiKey = false then
    ⟨some summaryKeyMissingMsg, none, 0, []⟩
  else
    let req : GenRequest :=
      ⟨geminiModel, summaryPrompt answer, summaryInstruction type targetLangName, false⟩
    match callGeminiWithRetry outcomes defaultMaxRetries defaultInitialDelay with
    | .success t a ds => ⟨some t, some req, a, ds⟩
    | .thrown _ a ds => ⟨none, some req, a, ds⟩
    | .afterLoop _ a ds => ⟨none, some req, a, ds⟩

/-- The system instruction built by `checkAnswerConsistency`. -/
def consistencySystemInstruction : String :=
  "You are a fact-checking assistant for marriage interviews. \n  Compare the Groom\x27s and Bride\x27s answers to the given question. \n  Determine if they are semantically contradictory (e.g., different dates, different locations, different people).\n  Ignore minor phrasing differences. Focus only on factual conflicts.\n  Respond only in JSON format."

/-- The prompt built by `checkAnswerConsistency`. -/
def consistencyPrompt (question maleAnswer femaleAnswer : String) : String :=
  "\n    Question: " ++ question ++ "\n    Groom\x27s Answer: " ++ maleAnswer ++ "\n    Bride\x27s Answer: " ++ femaleAnswer ++ "\n    \n    Check for factual contradictions.\n  "

/-- The fail-open literal `\x7b consistent: true \x7d` returned by
`checkAnswerConsistency` on a missing credential and on any caught error. -/
def consistentTrueJson : Json := Json.obj [("consistent", Json.bool true)]

/-- Conformance to the `responseSchema` declared by `checkAnswerConsistency`:
an object with a required boolean `consistent` and an optional string
`reason`. -/
def conformsConsistencySchema : Json → Bool
  | Json.obj fields =>
    (match List.lookup "consistent" fields with
     | some (Json.bool _) => true
     | _ => false) &&
    (match List.lookup "reason" fields with
     | some (Json.str _) => true
     | some _ => false
     | none => true)
  | _ => false

/-- `checkAnswerConsistency(question, maleAnswer, femaleAnswer)`
(src/geminiService.ts lines 179-236): on success it returns
`JSON.parse(response.text)`; the catch block (covering a thrown call path
and a `JSON.parse` failure alike) returns the fail-open object. -/
def checkAnswerConsistency (apiKey : Option String)
    (question maleAnswer femaleAnswer : String)
    (outcomes : Nat → Outcome String) : OpRun Json :=
  if hasKey apiKey = false then
    ⟨consistentTrueJson, none, 0, []⟩
  else
    let req : GenRequest :=
      ⟨geminiModel, consistencyPrompt question maleAnswer femaleAnswer,
        consistencySystemInstruction, true⟩
    match callGeminiWithRetry outcomes defaultMaxRetries defaultInitialDelay with
    | .success t a ds =>
      match jsonParse t with
      | some j => ⟨j, some req, a, ds⟩
      | none => ⟨consistentTrueJson, some req, a, ds⟩
    | .thrown _ a ds => ⟨consistentTrueJson, some req, a, ds⟩
    | .afterLoop _ a ds => ⟨consistentTrueJson, some req, a, ds⟩

/-- The claim-side formulation of the retryable classification, stated with
propositional substring containment over the error fields: the status field
equals 429, the numeric code field equals 429, the message contains "429",
"RESOURCE_EXHAUSTED", or "quota", or the JSON serialization contains one of
those three substrings. -/
def retryableSpec (e : JsError) : Prop :=
  e.status = some 429 ∨
  e.code = some 429 ∨
  (∃ m, e.message = some m ∧
    ("429".data <:+: m.data ∨ "RESOURCE_EXHAUSTED".data <:+: m.data ∨
      "quota".data <:+: m.data)) ∨
  "429".data <:+: e.serialized.data ∨
  "RESOURCE_EXHAUSTED".data <:+: e.serialized.data ∨
  "quota".data <:+: e.serialized.data

/-! ## Theorems -/

theorem consDelay_eq_afterLoop {α : Type} {d : Nat} {x : ExecResult α}
    {le : Option JsError} {a : Nat} {ds : List Nat}
    (h : x.consDelay d = ExecResult.afterLoop le a ds) :
    ∃ ds2, x = ExecResult.afterLoop le a ds2 := by
  cases x with
  | success v a2 ds2 => simp [ExecResult.consDelay] at h
  | thrown e a2 ds2 => simp [ExecResult.consDelay] at h
  | afterLoop le2 a2 ds2 =>
    simp [ExecResult.consDelay] at h
    exact ⟨ds2, by rw [h.1, h.2.1]⟩

theorem retryGo_ne_afterLoop {α : Type} (outcomes : Nat → Outcome α)
    (maxRetries initialDelay : Nat) :
    ∀ remaining i le, i + remaining = maxRetries → 1 ≤ remaining →
      ∀ le2 a ds, retryGo outcomes maxRetries initialDelay i remaining le ≠
        ExecResult.afterLoop le2 a ds := by
  intro remaining
  induction remaining with
  | zero => intro i le h h1; omega
  | succ r ih =>
    intro i le hinv _ le2 a ds
    simp only [retryGo]
    cases houtcome : outcomes i with
    | ok v => simp
    | err e =>
      by_cases hc : isRateLimit e = true ∧ i < maxRetries - 1
      · simp only [hc.1, hc.2, and_self, if_true]
        intro hcontra
        obtain ⟨ds2, hds2⟩ := consDelay_eq_afterLoop hcontra
        exact ih (i + 1) (some e) (by omega) (by omega) le2 a ds2 hds2
      · simp [hc]

theorem retryGo_allRetryable {α : Type} (outcomes : Nat → Outcome α) (e : Nat → JsError)
    (maxRetries initialDelay : Nat)
    (hout : ∀ j, j < maxRetries → outcomes j = Outcome.err (e j))
    (hrl : ∀ j, j < maxRetries → isRateLimit (e j) = true) :
    ∀ remaining i le, i + remaining = maxRetries → 1 ≤ remaining →
      retryGo outcomes maxRetries initialDelay i remaining le =
        ExecResult.thrown (e (maxRetries - 1)) maxRetries
          ((List.range' i (remaining - 1)).map (fun j => initialDelay * 2 ^ j)) := by
  intro remaining
  induction remaining with
  | zero => intro i le h h1; omega
  | succ r ih =>
    intro i le hinv _
    have hi : i < maxRetries := by omega
    simp only [retryGo, hout i hi]
    by_cases hlt : i < maxRetries - 1
    · have hr1 : 1 ≤ r := by omega
      simp only [hrl i hi, hlt, and_self, if_true]
      rw [ih (i + 1) (some (e i)) (by omega) hr1]
      simp only [ExecResult.consDelay]
      have hr : r + 1 - 1 = (r - 1) + 1 := by omega
      rw [hr, List.range'_succ]
      simp
    · have hr0 : r = 0 := by omega
      subst hr0
      have hi1 : i = maxRetries - 1 := by omega
      subst hi1
      rw [if_neg (fun hcon => hlt hcon.2)]
      have hm : maxRetries - 1 + 1 = maxRetries := by omega
      rw [hm]
      simp [List.range']

/-- C2: For every error sequence in which each attempt fails with an error
classified retryable, `callGeminiWithRetry` makes exactly `maxRetries` call
attempts, sleeping between consecutive attempts for
`initialDelay * 2 ^ 0, ..., initialDelay * 2 ^ (maxRetries - 2)` milliseconds
(pure exponential backoff, no delay after the final attempt), then fails
with the last encountered error. -/
theorem callGeminiWithRetry_all_retryable {α : Type} (outcomes : Nat → Outcome α)
    (e : Nat → JsError) (maxRetries initialDelay : Nat)
    (hmr : 1 ≤ maxRetries)
    (hout : ∀ j, j < maxRetries → outcomes j = Outcome.err (e j))
    (hrl : ∀ j, j < maxRetries → isRateLimit (e j) = true) :
    callGeminiWithRetry outcomes maxRetries initialDelay =
      ExecResult.thrown (e (maxRetries - 1)) maxRetries
        ((List.range (maxRetries - 1)).map (fun j => initialDelay * 2 ^ j)) := by
  rw [callGeminiWithRetry,
    retryGo_allRetryable outcomes e maxRetries initialDelay hout hrl maxRetries 0 none
      (by omega) hmr, List.range_eq_range']

/-- An error carrying a 429 status, classified retryable. -/
def err429 : JsError := ⟨some 429, none, none, ""⟩

/-- An error with no 429/quota signature anywhere, classified non-retryable. -/
def errFatal : JsError := ⟨some 500, none, some "boom", "fatal"⟩

/-- Witness for C2: three consecutive 429 failures exhaust `maxRetries = 3`
with delays 7 and 14, and rethrow the last error. -/
theorem callGeminiWithRetry_all_retryable_witness :
    callGeminiWithRetry (fun _ => (Outcome.err err429 : Outcome String)) 3 7 =
      ExecResult.thrown err429 3 [7, 14] := by
  have h := callGeminiWithRetry_all_retryable
    (fun _ => (Outcome.err err429 : Outcome String))
    (fun _ => err429) 3 7 (by decide)
    (fun j _ => rfl) (fun j _ => by show isRateLimit err429 = true; decide)
  simpa using h

theorem retryGo_success_at {α : Type} (outcomes : Nat → Outcome α) (e : Nat → JsError)
    (v : α) (maxRetries initialDelay : Nat) :
    ∀ k i remaining le, i + remaining = maxRetries → i + k < maxRetries →
      (∀ j, j < k → outcomes (i + j) = Outcome.err (e (i + j)) ∧
        isRateLimit (e (i + j)) = true) →
      outcomes (i + k) = Outcome.ok v →
      retryGo outcomes maxRetries initialDelay i remaining le =
        ExecResult.success v (i + k + 1)
          ((List.range' i k).map (fun j => initialDelay * 2 ^ j)) := by
  intro k
  induction k with
  | zero =>
    intro i remaining le hinv hik hfail hsucc
    obtain ⟨r, rfl⟩ : ∃ r, remaining = r + 1 := ⟨remaining - 1, by omega⟩
    rw [Nat.add_zero] at hsucc
    simp [retryGo, hsucc, List.range']
  | succ kk ih =>
    intro i remaining le hinv hik hfail hsucc
    obtain ⟨r, rfl⟩ : ∃ r, remaining = r + 1 := ⟨remaining - 1, by omega⟩
    have h0 := hfail 0 (by omega)
    rw [Nat.add_zero] at h0
    have hlt : i < maxRetries - 1 := by omega
    simp only [retryGo, h0.1, h0.2, hlt, and_self, if_true]
    rw [ih (i + 1) r (some (e i)) (by omega) (by omega)
      (fun j hj => by
        have hf := hfail (j + 1) (by omega)
        rwa [show i + (j + 1) = i + 1 + j from by omega] at hf)
      (by rwa [show i + 1 + kk = i + (kk + 1) from by omega])]
    simp only [ExecResult.consDelay, List.range'_succ, List.map_cons]
    have h2 : i + 1 + kk = i + (kk + 1) := by omega
    rw [h2]

/-- C5: If the wrapped call succeeds on attempt `k` (`0 ≤ k < maxRetries`,
all earlier attempts having failed retryably), `callGeminiWithRetry` returns
that attempt's value immediately: exactly `k + 1` call attempts are made and
exactly the `k` backoff delays preceding attempts `1..k` are slept. -/
theorem callGeminiWithRetry_success_at {α : Type} (outcomes : Nat → Outcome α)
    (e : Nat → JsError) (v : α) (k maxRetries initialDelay : Nat)
    (hk : k < maxRetries)
    (hfail : ∀ j, j < k → outcomes j = Outcome.err (e j) ∧ isRateLimit (e j) = true)
    (hsucc : outcomes k = Outcome.ok v) :
    callGeminiWithRetry outcomes maxRetries initialDelay =
      ExecResult.success v (k + 1) ((List.range k).map (fun j => initialDelay * 2 ^ j)) := by
  rw [callGeminiWithRetry,
    retryGo_success_at outcomes e v maxRetries initialDelay k 0 maxRetries none
      (by omega) (by omega)
      (fun j hj => by simpa using hfail j hj)
      (by simpa using hsucc)]
  simp [List.range_eq_range']

/-- Witness for C5: a retryable failure then a success on attempt 1 returns
the success after two attempts and one delay of 10. -/
theorem callGeminiWithRetry_success_at_witness :
    callGeminiWithRetry
      (fun i => if i = 0 then Outcome.err err429 else (Outcome.ok "done" : Outcome String))
      5 10 = ExecResult.success "done" 2 [10] := by
  have h := callGeminiWithRetry_success_at
    (fun i => if i = 0 then Outcome.err err429 else (Outcome.ok "done" : Outcome String))
    (fun _ => err429) "done" 1 5 10 (by decide)
    (fun j hj => by
      have hj0 : j = 0 := by omega
      subst hj0
      exact ⟨rfl, by show isRateLimit err429 = true; decide⟩)
    rfl
  simpa using h

/-- C4: For every error not classified retryable, `callGeminiWithRetry`
makes exactly one call attempt and fails immediately with that same error
value, performing no delay and no further attempts. -/
theorem callGeminiWithRetry_nonretryable {α : Type} (outcomes : Nat → Outcome α)
    (e : JsError) (maxRetries initialDelay : Nat)
    (hmr : 1 ≤ maxRetries)
    (hout : outcomes 0 = Outcome.err e)
    (hnr : isRateLimit e = false) :
    callGeminiWithRetry outcomes maxRetries initialDelay = ExecResult.thrown e 1 [] := by
  obtain ⟨m, rfl⟩ : ∃ m, maxRetries = m + 1 := ⟨maxRetries - 1, by omega⟩
  rw [callGeminiWithRetry]
  simp [retryGo, hout, hnr]

/-- Witness for C4: a 500-status error with no quota signature is rethrown
after a single attempt with no delay. -/
theorem callGeminiWithRetry_nonretryable_witness :
    callGeminiWithRetry (fun _ => (Outcome.err errFatal : Outcome String)) 5 5000 =
      ExecResult.thrown errFatal 1 [] :=
  callGeminiWithRetry_nonretryable (fun _ => (Outcome.err errFatal : Outcome String))
    errFatal 5 5000 (by decide) rfl (by decide)

/-- C10: For `maxRetries ≥ 1` and every sequence of call outcomes,
`callGeminiWithRetry` terminates either by returning a successful value or
by throwing from within the catch block of an attempt; the trailing
`throw lastError` after the loop (`ExecResult.afterLoop`) is unreachable,
and the undefined-last-error case arises exactly when `maxRetries = 0`. -/
theorem callGeminiWithRetry_no_trailing_throw {α : Type} (outcomes : Nat → Outcome α)
    (maxRetries initialDelay : Nat) (hmr : 1 ≤ maxRetries) :
    ((∃ v a ds, callGeminiWithRetry outcomes maxRetries initialDelay =
        ExecResult.success v a ds) ∨
     (∃ e a ds, callGeminiWithRetry outcomes maxRetries initialDelay =
        ExecResult.thrown e a ds)) ∧
    (∀ d2, callGeminiWithRetry outcomes 0 d2 = ExecResult.afterLoop none 0 []) := by
  constructor
  · cases hres : callGeminiWithRetry outcomes maxRetries initialDelay with
    | success v a ds => exact Or.inl ⟨v, a, ds, rfl⟩
    | thrown e2 a ds => exact Or.inr ⟨e2, a, ds, rfl⟩
    | afterLoop le a ds =>
      exact absurd hres
        (retryGo_ne_afterLoop outcomes maxRetries initialDelay maxRetries 0 none
          (by omega) hmr le a ds)
  · intro d2
    rfl

/-- Witness for C10 at a concrete outcome sequence and `maxRetries = 1`. -/
theorem callGeminiWithRetry_no_trailing_throw_witness :
    ((∃ v a ds, callGeminiWithRetry (fun _ => (Outcome.ok "t" : Outcome String)) 1 5 =
        ExecResult.success v a ds) ∨
     (∃ e a ds, callGeminiWithRetry (fun _ => (Outcome.ok "t" : Outcome String)) 1 5 =
        ExecResult.thrown e a ds)) ∧
    (∀ d2, callGeminiWithRetry (fun _ => (Outcome.ok "t" : Outcome String)) 0 d2 =
      ExecResult.afterLoop none 0 []) :=
  callGeminiWithRetry_no_trailing_throw (fun _ => (Outcome.ok "t" : Outcome String)) 1 5
    (by decide)

/-- C3: An error is classified retryable by the executor if and only if its
status field equals 429, its numeric code field equals 429, its message
contains the substring "429", "RESOURCE_EXHAUSTED", or "quota"
(case-sensitive), or its full JSON string serialization contains one of
those three substrings; every other error is non-retryable. -/
theorem isRateLimit_iff_retryableSpec (e : JsError) :
    isRateLimit e = true ↔ retryableSpec e := by
  cases e with
  | mk status code message serialized =>
    cases message with
    | none =>
      simp [isRateLimit, retryableSpec, strIncludes]
      tauto
    | some m =>
      simp [isRateLimit, retryableSpec, strIncludes]
      tauto

/-- C6: When the credential is absent, `getAiFeedback` returns the exact
fixed bilingual "key not configured" string as a normal return value,
building no request, making no call attempt and sleeping no delay. -/
theorem getAiFeedback_missing_key (apiKey : Option String)
    (question maleAnswer femaleAnswer targetLangName : String)
    (outcomes : Nat → Outcome String)
    (h : hasKey apiKey = false) :
    getAiFeedback apiKey question maleAnswer femaleAnswer targetLangName outcomes =
      ⟨feedbackKeyMissingMsg, none, 0, []⟩ := by
  simp [getAiFeedback, h]

/-- Witness for C6 at an absent credential. -/
theorem getAiFeedback_missing_key_witness :
    getAiFeedback none "q" "a" "b" "English" (fun _ => Outcome.ok "t") =
      ⟨feedbackKeyMissingMsg, none, 0, []⟩ :=
  getAiFeedback_missing_key none "q" "a" "b" "English" (fun _ => Outcome.ok "t") rfl

/-- C7: With a present credential, every failure of the underlying call path
(a rethrown error or the trailing throw) makes `getAiFeedback` return the
fixed bilingual fallback string rather than propagate the error, and a
successful call returns the raw response text unmodified. -/
theorem getAiFeedback_fallback_and_success (apiKey : Option String)
    (question maleAnswer femaleAnswer targetLangName : String)
    (outcomes : Nat → Outcome String) (hk : hasKey apiKey = true) :
    (∀ e a ds,
      callGeminiWithRetry outcomes defaultMaxRetries defaultInitialDelay =
          ExecResult.thrown e a ds →
        (getAiFeedback apiKey question maleAnswer femaleAnswer targetLangName
          outcomes).result = feedbackFallbackMsg) ∧
    (∀ le a ds,
      callGeminiWithRetry outcomes defaultMaxRetries defaultInitialDelay =
          ExecResult.afterLoop le a ds →
        (getAiFeedback apiKey question maleAnswer femaleAnswer targetLangName
          outcomes).result = feedbackFallbackMsg) ∧
    (∀ v a ds,
      callGeminiWithRetry outcomes defaultMaxRetries defaultInitialDelay =
          ExecResult.success v a ds →
        (getAiFeedback apiKey question maleAnswer femaleAnswer targetLangName
          outcomes).result = v) := by
  refine ⟨fun e a ds h => ?_, fun le a ds h => ?_, fun v a ds h => ?_⟩ <;>
    simp [getAiFeedback, hk, h]

/-- Witness for C7: with a credential and an immediately successful call,
the raw response text is returned. -/
theorem getAiFeedback_fallback_and_success_witness :
    hasKey (some "k") = true ∧
    (getAiFeedback (some "k") "q" "a" "b" "English"
      (fun _ => Outcome.ok "t")).result = "t" :=
  ⟨rfl,
    (getAiFeedback_fallback_and_success (some "k") "q" "a" "b" "English"
      (fun _ => Outcome.ok "t") rfl).2.2 "t" 1 [] rfl⟩

/-- C8: `translateText` returns `null` when the credential is absent
(building no request and making no call) and on any failure of the call
path; on success it returns the raw response text. -/
theorem translateText_contract (apiKey : Option String) (text : String)
    (targetLang : TargetLang) (outcomes : Nat → Outcome String) :
    (hasKey apiKey = false →
      translateText apiKey text targetLang outcomes = ⟨none, none, 0, []⟩) ∧
    (hasKey apiKey = true →
      (∀ e a ds,
        callGeminiWithRetry outcomes defaultMaxRetries defaultInitialDelay =
            ExecResult.thrown e a ds →
          (translateText apiKey text targetLang outcomes).result = none) ∧
      (∀ le a ds,
        callGeminiWithRetry outcomes defaultMaxRetries defaultInitialDelay =
            ExecResult.afterLoop le a ds →
          (translateText apiKey text targetLang outcomes).result = none) ∧
      (∀ v a ds,
        callGeminiWithRetry outcomes defaultMaxRetries defaultInitialDelay =
            ExecResult.success v a ds →
          (translateText apiKey text targetLang outcomes).result = some v)) := by
  refine ⟨fun h => by simp [translateText, h],
    fun hk => ⟨fun e a ds h => ?_, fun le a ds h => ?_, fun v a ds h => ?_⟩⟩ <;>
    simp [translateText, hk, h]

/-- Witness for C8: a missing credential returns `none` with no call, and a
present credential with a successful call returns the text. -/
theorem translateText_contract_witness :
    translateText none "hi" TargetLang.zh (fun _ => Outcome.ok "t") = ⟨none, none, 0, []⟩ ∧
    (translateText (some "k") "hi" TargetLang.zh (fun _ => Outcome.ok "t")).result =
      some "t" :=
  ⟨(translateText_contract none "hi" TargetLang.zh (fun _ => Outcome.ok "t")).1 rfl,
    ((translateText_contract (some "k") "hi" TargetLang.zh
      (fun _ => Outcome.ok "t")).2 rfl).2.2 "t" 1 [] rfl⟩

/-- C9: For every answer and target language name, `getAiSummary` builds
three pairwise-distinct instructions for the concise, detailed and
keypoints types, and passing the declared default for the `type` parameter
behaves identically to passing `concise`. -/
theorem getAiSummary_instructions_distinct_and_default
    (apiKey : Option String) (answer targetLangName : String)
    (outcomes : Nat → Outcome String) :
    (summaryInstruction SummaryType.concise targetLangName ≠
       summaryInstruction SummaryType.detailed targetLangName ∧
     summaryInstruction SummaryType.concise targetLangName ≠
       summaryInstruction SummaryType.keypoints targetLangName ∧
     summaryInstruction SummaryType.detailed targetLangName ≠
       summaryInstruction SummaryType.keypoints targetLangName) ∧
    getAiSummary apiKey answer targetLangName summaryTypeDefault outcomes =
      getAiSummary apiKey answer targetLangName SummaryType.concise outcomes := by
  refine ⟨⟨?_, ?_, ?_⟩, rfl⟩
  · intro h
    have h2 := congrArg String.length h
    simp only [summaryInstruction, String.length_append] at h2
    have hne : (summaryInstructionHead SummaryType.concise).length ≠
        (summaryInstructionHead SummaryType.detailed).length := by decide
    omega
  · intro h
    have h2 := congrArg String.length h
    simp only [summaryInstruction, String.length_append] at h2
    have hne : (summaryInstructionHead SummaryType.concise).length ≠
        (summaryInstructionHead SummaryType.keypoints).length := by decide
    omega
  · intro h
    have h2 := congrArg String.length h
    simp only [summaryInstruction, String.length_append] at h2
    have hne : (summaryInstructionHead SummaryType.detailed).length ≠
        (summaryInstructionHead SummaryType.keypoints).length := by decide
    omega

/-- Counterexample to C1: with a present credential and a successful
response whose text "5" is valid JSON but does not conform to the declared
two-field schema, `checkAnswerConsistency` does not treat the response as a
failure: it returns the parsed value 5 verbatim, not the fail-open object
with `consistent = true`. -/
theorem checkAnswerConsistency_nonconforming_not_failure :
    conformsConsistencySchema (Json.num 5) = false ∧
    (checkAnswerConsistency (some "k") "Q" "A" "B"
      (fun _ => Outcome.ok "5")).result = Json.num 5 ∧
    Json.num 5 ≠ consistentTrueJson := by
  refine ⟨rfl, rfl, fun h => Json.noConfusion h⟩

/-- C1 (amended): a successful response whose text parses as JSON is
returned verbatim, whatever its shape (no schema validation is performed);
unparseable response text is treated as a failure; and in every failure
mode (missing credential, parse failure, rethrown error, trailing throw)
the operation returns exactly the fail-open object `consistent = true`
with no `reason` field and never throws. -/
theorem checkAnswerConsistency_amended (apiKey : Option String)
    (question maleAnswer femaleAnswer : String) (outcomes : Nat → Outcome String) :
    (hasKey apiKey = false →
      checkAnswerConsistency apiKey question maleAnswer femaleAnswer outcomes =
        ⟨consistentTrueJson, none, 0, []⟩) ∧
    (hasKey apiKey = true →
      (∀ t a ds,
        callGeminiWithRetry outcomes defaultMaxRetries defaultInitialDelay =
            ExecResult.success t a ds →
          (∀ j, jsonParse t = some j →
            (checkAnswerConsistency apiKey question maleAnswer femaleAnswer
              outcomes).result = j) ∧
          (jsonParse t = none →
            (checkAnswerConsistency apiKey question maleAnswer femaleAnswer
              outcomes).result = consistentTrueJson)) ∧
      (∀ e a ds,
        callGeminiWithRetry outcomes defaultMaxRetries defaultInitialDelay =
            ExecResult.thrown e a ds →
          (checkAnswerConsistency apiKey question maleAnswer femaleAnswer
            outcomes).result = consistentTrueJson) ∧
      (∀ le a ds,
        callGeminiWithRetry outcomes defaultMaxRetries defaultInitialDelay =
            ExecResult.afterLoop le a ds →
          (checkAnswerConsistency apiKey question maleAnswer femaleAnswer
            outcomes).result = consistentTrueJson)) := by
  refine ⟨fun h => by simp [checkAnswerConsistency, h], fun hk => ⟨?_, ?_, ?_⟩⟩
  · refine fun t a ds h => ⟨fun j hj => ?_, fun hj => ?_⟩ <;>
      simp [checkAnswerConsistency, hk, h, hj]
  · intro e a ds h
    simp [checkAnswerConsistency, hk, h]
  · intro le a ds h
    simp [checkAnswerConsistency, hk, h]

/-- Witness for the amended C1: a conforming structured response is parsed
and returned verbatim, and unparseable text falls back to the fail-open
object. -/
theorem checkAnswerConsistency_amended_witness :
    (checkAnswerConsistency (some "k") "Q" "A" "B"
      (fun _ => Outcome.ok "\x7b\"consistent\": false, \"reason\": \"dates differ\"\x7d")).result =
      Json.obj [("consistent", Json.bool false), ("reason", Json.str "dates differ")] ∧
    (checkAnswerConsistency (some "k") "Q" "A" "B"
      (fun _ => Outcome.ok "not json")).result = consistentTrueJson :=
  ⟨(((checkAnswerConsistency_amended (some "k") "Q" "A" "B"
      (fun _ => Outcome.ok "\x7b\"consistent\": false, \"reason\": \"dates differ\"\x7d")).2
        rfl).1 "\x7b\"consistent\": false, \"reason\": \"dates differ\"\x7d" 1 [] rfl).1
      (Json.obj [("consistent", Json.bool false), ("reason", Json.str "dates differ")]) rfl,
   (((checkAnswerConsistency_amended (some "k") "Q" "A" "B"
      (fun _ => Outcome.ok "not json")).2 rfl).1 "not json" 1 [] rfl).2 rfl⟩

/-- Witness for C3: a concrete 429-status error satisfies both sides of the
classification equivalence. -/
theorem isRateLimit_iff_retryableSpec_witness :
    retryableSpec err429 :=
  (isRateLimit_iff_retryableSpec err429).mp (by decide)

/-- Witness for C9 at a concrete call: passing the declared default for the
`type` parameter gives the same run as passing the concise type. -/
theorem getAiSummary_instructions_distinct_and_default_witness :
    getAiSummary (some "k") "ans" "English" summaryTypeDefault (fun _ => Outcome.ok "s") =
      getAiSummary (some "k") "ans" "English" SummaryType.concise (fun _ => Outcome.ok "s") :=
  (getAiSummary_instructions_distinct_and_default (some "k") "ans" "English"
    (fun _ => Outcome.ok "s")).2
